import Mathlib

/-!
Verification of the metadata-extraction pipeline of the knowledge-graph
repository: the chunker (`split_text_with_overlap`), the structured-output
parser (`_extract_json_from_string`), the summarization orchestrator
(`call_openai_for_metadata` / `call_openai_for_enhanced_metadata`) and the
knowledge-store merge (`update_knowledge_db`).

Python strings are modelled as `List Char`; Python dicts produced by JSON
parsing as the inductive `Json`; the external OpenAI chat service as an
oracle function from requests to either a response text or a service
error; Python's `json.loads` as a parameter `jsonLoads` (it is standard
library, external to the repository), with the concrete executable
`jsonLoadsImpl` modelling it on the JSON fragment used by concrete
inputs of this development.
-/

/-- Python `str.strip()` whitespace test: the six ASCII whitespace
characters `str.isspace` recognises (the inputs used here are ASCII). -/
def isPySpace (c : Char) : Bool :=
  c = ' ' || c = '\t' || c = '\n' || c = '\r' || c = '\x0b' || c = '\x0c'

/-- Python `s.strip()`: remove leading and trailing whitespace. -/
def pyStrip (s : List Char) : List Char :=
  ((s.dropWhile isPySpace).reverse.dropWhile isPySpace).reverse

/-- Python `"\n".join(xs)`. -/
def joinWithNewline (xs : List (List Char)) : List Char :=
  List.intercalate ['\n'] xs

example : pyStrip (" ab c\n".toList) = "ab c".toList := by decide
example : joinWithNewline ["a".toList, "b".toList] = "a\nb".toList := by decide

/-- A parsed JSON value, as Python's `json.loads` would return it
(dicts as association lists in insertion order; integers only, since no
input of this development carries a float). -/
inductive Json where
  | null : Json
  | bool (b : Bool) : Json
  | num (n : Int) : Json
  | str (s : List Char) : Json
  | arr (xs : List Json) : Json
  | obj (kvs : List (List Char × Json)) : Json

/-- Python `key in dict` for a parsed JSON value: true only for an object
that holds the key. -/
def Json.hasKey : Json → List Char → Bool
  | Json.obj kvs, k => kvs.any (fun kv => kv.1 == k)
  | _, _ => false

/-- JSON-grammar whitespace, as `json.loads` skips between tokens. -/
def isJsonWs (c : Char) : Bool :=
  c = ' ' || c = '\t' || c = '\n' || c = '\r'

/-- Skip JSON whitespace. -/
def skipWs (s : List Char) : List Char := s.dropWhile isJsonWs

/-- Consume a run of decimal digits, accumulating their value. -/
def digitsToNat (acc : Nat) : List Char → Nat × List Char
  | c :: cs => if c.isDigit then digitsToNat (acc * 10 + (c.toNat - 48)) cs else (acc, c :: cs)
  | [] => (acc, [])

/-- Parse the rest of a JSON string literal, after the opening quote:
the decoded characters and the input after the closing quote. -/
def parseStringRest : List Char → Option (List Char × List Char)
  | [] => none
  | '"' :: rest => some ([], rest)
  | '\\' :: c :: rest =>
    let esc : Option Char :=
      if c = '"' then some '"' else if c = '\\' then some '\\'
      else if c = '/' then some '/' else if c = 'n' then some '\n'
      else if c = 't' then some '\t' else if c = 'r' then some '\r'
      else if c = 'b' then some '\x08' else if c = 'f' then some '\x0c' else none
    match esc with
    | some e => (parseStringRest rest).map (fun p => (e :: p.1, p.2))
    | none => none
  | c :: rest => (parseStringRest rest).map (fun p => (c :: p.1, p.2))

mutual

/-- Recursive-descent JSON value parser with a fuel bound on nesting. -/
def parseValue : Nat → List Char → Option (Json × List Char)
  | 0, _ => none
  | fuel + 1, s =>
    match skipWs s with
    | 'n' :: 'u' :: 'l' :: 'l' :: r => some (Json.null, r)
    | 't' :: 'r' :: 'u' :: 'e' :: r => some (Json.bool true, r)
    | 'f' :: 'a' :: 'l' :: 's' :: 'e' :: r => some (Json.bool false, r)
    | '"' :: r => (parseStringRest r).map (fun p => (Json.str p.1, p.2))
    | '[' :: r => (parseArrayItems fuel r).map (fun p => (Json.arr p.1, p.2))
    | '\x7b' :: r => (parseObjItems fuel r).map (fun p => (Json.obj p.1, p.2))
    | '-' :: c :: r =>
      if c.isDigit then
        let p := digitsToNat (c.toNat - 48) r
        some (Json.num (-(Int.ofNat p.1)), p.2)
      else none
    | c :: r =>
      if c.isDigit then
        let p := digitsToNat (c.toNat - 48) r
        some (Json.num (Int.ofNat p.1), p.2)
      else none
    | [] => none

/-- Items of a JSON array, after the opening bracket. -/
def parseArrayItems : Nat → List Char → Option (List Json × List Char)
  | 0, _ => none
  | fuel + 1, s =>
    match skipWs s with
    | ']' :: r => some ([], r)
    | _ =>
      match parseValue fuel s with
      | none => none
      | some (v, rest) =>
        match skipWs rest with
        | ',' :: r2 => (parseArrayItems fuel r2).map (fun p => (v :: p.1, p.2))
        | ']' :: r2 => some ([v], r2)
        | _ => none

/-- Members of a JSON object, after the opening brace. -/
def parseObjItems : Nat → List Char → Option (List (List Char × Json) × List Char)
  | 0, _ => none
  | fuel + 1, s =>
    match skipWs s with
    | '\x7d' :: r => some ([], r)
    | '"' :: r =>
      match parseStringRest r with
      | none => none
      | some (key, rest) =>
        match skipWs rest with
        | ':' :: r2 =>
          match parseValue fuel r2 with
          | none => none
          | some (v, rest2) =>
            match skipWs rest2 with
            | ',' :: r3 => (parseObjItems fuel r3).map (fun p => ((key, v) :: p.1, p.2))
            | '\x7d' :: r3 => some ([(key, v)], r3)
            | _ => none
        | _ => none
    | _ => none

end

/-- Python's `json.loads`, modelled on the JSON fragment exercised by the
concrete inputs of this development: `null`, booleans, integers, strings
with the simple escapes, arrays and objects. `json.loads` is the Python
standard library, external to the repository; the theorems quantifying
over every input string take the parser as an abstract parameter
`jsonLoads`, and this executable model instantiates it at concrete
inputs. Leading and trailing whitespace is allowed, and the whole input
must be consumed, as `json.loads` demands. -/
def jsonLoadsImpl (s : List Char) : Option Json :=
  match parseValue (s.length + 1) s with
  | some (j, rest) => if skipWs rest = [] then some j else none
  | none => none

example : jsonLoadsImpl ("\x7b\x7d".toList) = some (Json.obj []) := rfl
example : jsonLoadsImpl ("hello".toList) = none := rfl
example : jsonLoadsImpl ("".toList) = none := rfl
example :
    jsonLoadsImpl ("\x7b\"summary\": \"A\", \"keywords\": []\x7d".toList)
      = some (Json.obj [("summary".toList, Json.str ("A".toList)),
                        ("keywords".toList, Json.arr [])]) := rfl

/-- Does `pat` stand at the head of `s`? -/
def listStartsWith : List Char → List Char → Bool
  | [], _ => true
  | _ :: _, [] => false
  | p :: ps, c :: cs => p = c && listStartsWith ps cs

/-- Index of the first occurrence of `pat` in `s`, scanning left to right
as `re.search` does. -/
def strFindIdx (pat : List Char) : List Char → Option Nat
  | [] => if listStartsWith pat [] then some 0 else none
  | c :: cs =>
    if listStartsWith pat (c :: cs) then some 0
    else (strFindIdx pat cs).map (fun k => k + 1)

/-- The literal `` ```json `` that opens a fenced JSON block (7 characters). -/
def fenceOpenPat : List Char := ['\x60', '\x60', '\x60', 'j', 's', 'o', 'n']

/-- The literal `` ``` `` that closes a fenced block. -/
def fenceClosePat : List Char := ['\x60', '\x60', '\x60']

/-- The fenced-block search `re.search(r"\x60\x60\x60json\s*(.*?)\s*\x60\x60\x60", text, re.DOTALL)`
of `_extract_json_from_string`, composed with the `.strip()` the source
applies to `match.group(1)`: the segment between the first occurrence of
the opening delimiter and the first closing delimiter after it (the
caller strips it, which subsumes the pattern's greedy `\s*` and the lazy
group's backtracking). `re.search` finds no match at a later start
either: occurrences of the opener cannot overlap, so a second opener
would itself supply a closing delimiter for the first. -/
def findFencedJson (text : List Char) : Option (List Char) :=
  match strFindIdx fenceOpenPat text with
  | none => none
  | some p =>
    let rest := text.drop (p + 7)
    match strFindIdx fenceClosePat rest with
    | none => none
    | some q => some (rest.take q)

example :
    findFencedJson ("say \x60\x60\x60json\n\x7b\x7d\n\x60\x60\x60 tail".toList)
      = some ("\n\x7b\x7d\n".toList) := rfl
example : findFencedJson ("no fence here".toList) = none := rfl
example : findFencedJson ("\x60\x60\x60json \x7b\x7d".toList) = none := rfl

/-- The default metadata dict `{"summary": "", "keywords": [], "entities": {}}`
returned by `knowledge_utils._extract_json_from_string` (and by the
orchestrator's call sites in the same file) when everything fails: every
field present and empty. -/
def defaultMetadataKU : Json :=
  Json.obj [("summary".toList, Json.str []),
            ("keywords".toList, Json.arr []),
            ("entities".toList, Json.obj [])]

/-- `extraction_functions._empty_metadata()`: the full default metadata
dict, every field present and empty. -/
def _empty_metadata : Json :=
  Json.obj [("title".toList, Json.str []),
            ("technical_field".toList, Json.str []),
            ("background_art".toList, Json.str []),
            ("prior_art_documents".toList, Json.arr []),
            ("problems_to_be_solved".toList, Json.str []),
            ("means_for_solving".toList, Json.str []),
            ("effects".toList, Json.str []),
            ("brief_description_of_drawings".toList, Json.str []),
            ("embodiments".toList, Json.str []),
            ("claims".toList, Json.arr []),
            ("additional_info".toList,
              Json.obj [("filing_date".toList, Json.str []),
                        ("publication_date".toList, Json.str []),
                        ("registration_date".toList, Json.str []),
                        ("inventors".toList, Json.arr []),
                        ("applicants".toList, Json.arr []),
                        ("agents".toList, Json.arr []),
                        ("priority_info".toList, Json.str [])]),
            ("terminologies".toList, Json.obj [])]

/-- The shared body of the two `_extract_json_from_string` variants,
parameterised by the default dict returned when every parse attempt
fails and by the JSON parser (Python's `json.loads`): try the fenced
block first (stripping it, as the source strips `match.group(1)`), then
the whole text, then fall back to the default. -/
def extract_json_core (dflt : Json) (jsonLoads : List Char → Option Json)
    (text : List Char) : Json :=
  match findFencedJson text with
  | some seg =>
    match jsonLoads (pyStrip seg) with
    | some j => j
    | none =>
      match jsonLoads text with
      | some j => j
      | none => dflt
  | none =>
    match jsonLoads text with
    | some j => j
    | none => dflt

/-- `knowledge_utils._extract_json_from_string` (lines 226-248): fenced
block, then whole text, then `{"summary": "", "keywords": [], "entities": {}}`. -/
def KnowledgeUtils._extract_json_from_string (jsonLoads : List Char → Option Json)
    (text : List Char) : Json :=
  extract_json_core defaultMetadataKU jsonLoads text

/-- `extraction_functions._extract_json_from_string` (lines 33-47): fenced
block, then whole text, then `_empty_metadata()`. -/
def ExtractionFunctions._extract_json_from_string (jsonLoads : List Char → Option Json)
    (text : List Char) : Json :=
  extract_json_core _empty_metadata jsonLoads text

/-- The chain of JSON-parse attempts the parser makes, as an `Option`:
the stripped fenced block if one is found and parses, else the whole
text if it parses, else `none`. -/
def jsonAttempts (jsonLoads : List Char → Option Json) (text : List Char) : Option Json :=
  match findFencedJson text with
  | some seg =>
    match jsonLoads (pyStrip seg) with
    | some j => some j
    | none => jsonLoads text
  | none => jsonLoads text

/-- The `while start < n` loop of `split_text_with_overlap`
(`knowledge_utils.py` lines 45-71 and, identically, `extraction_functions.py`
lines 22-31; the extra `if start >= n: break` of the former merely
pre-empts the loop condition). Each iteration slices
`text[start : start + chunk_size]` and advances `start` by
`chunk_size - overlap`. The extra fuel argument bounds the number of
iterations so the definition is structural; the theorem for C9 shows
fuel `text.length` (the value `split_text_with_overlap` passes) is never
exhausted when `overlap < chunk_size`. -/
def splitLoop (text : List Char) (chunk_size overlap : Nat) : Nat → Nat → List (List Char)
  | 0, _ => []
  | fuel + 1, start =>
    if start < text.length then
      ((text.drop start).take chunk_size) ::
        splitLoop text chunk_size overlap fuel (start + (chunk_size - overlap))
    else []

/-- `split_text_with_overlap(text, chunk_size, overlap)`: the chunker. -/
def split_text_with_overlap (text : List Char) (chunk_size overlap : Nat) : List (List Char) :=
  splitLoop text chunk_size overlap text.length 0

/-- The same loop with the fuel made observable: `none` exactly when the
fuel runs out with `start < len(text)` still true, i.e. when the given
iteration budget does not suffice. Termination of the source's `while`
loop is the statement that `splitLoopChecked` with budget `text.length`
returns `some`. -/
def splitLoopChecked (text : List Char) (chunk_size overlap : Nat) : Nat → Nat → Option (List (List Char))
  | 0, start => if start < text.length then none else some []
  | fuel + 1, start =>
    if start < text.length then
      (splitLoopChecked text chunk_size overlap fuel (start + (chunk_size - overlap))).map
        (fun rest => ((text.drop start).take chunk_size) :: rest)
    else some []

example :
    split_text_with_overlap ("abcdefg".toList) 3 1
      = ["abc".toList, "cde".toList, "efg".toList, "g".toList] := by decide
example : split_text_with_overlap ("abc".toList) 3 1 = ["abc".toList, "c".toList] := by decide
example : split_text_with_overlap [] 3 1 = [] := by decide
example : split_text_with_overlap ("ab".toList) 3 1 = ["ab".toList] := by decide

/-- The chunk count the spec asserts:
`ceil(max(0, n − overlap) / (chunk_size − overlap))`, written with
natural-number ceiling division. Modelled from the spec's words, to be
compared with the count the code produces. -/
def specChunkCount (n chunk_size overlap : Nat) : Nat :=
  (max 0 (n - overlap) + (chunk_size - overlap) - 1) / (chunk_size - overlap)

example : specChunkCount 7000 3000 200 = 3 := by norm_num [specChunkCount]
example : specChunkCount 3 3 1 = 1 := by norm_num [specChunkCount]

theorem splitLoop_stop (text : List Char) (cs ov fuel start : Nat)
    (h : text.length ≤ start) : splitLoop text cs ov fuel start = [] := by
  cases fuel with
  | zero => rfl
  | succ f => simp [splitLoop, Nat.not_lt.mpr h]

theorem splitLoop_length (text : List Char) (cs ov : Nat) (hov : ov < cs) :
    ∀ fuel start, text.length - start ≤ fuel →
      (splitLoop text cs ov fuel start).length
        = (text.length - start + (cs - ov) - 1) / (cs - ov) := by
  intro fuel
  induction fuel with
  | zero =>
    intro start h
    have h0 : text.length - start = 0 := by omega
    have : (splitLoop text cs ov 0 start).length = 0 := rfl
    rw [this, h0]
    exact (Nat.div_eq_of_lt (by omega)).symm
  | succ f ih =>
    intro start h
    by_cases hs : start < text.length
    · have hf : text.length - (start + (cs - ov)) ≤ f := by omega
      simp only [splitLoop, if_pos hs, List.length_cons]
      rw [ih _ hf]
      have hm : 1 ≤ text.length - start := by omega
      set s := cs - ov with hsdef
      have hs0 : 0 < s := by omega
      set m := text.length - start with hmdef
      have hsub : text.length - (start + s) = m - s := by omega
      rw [hsub]
      have key : ∀ k : Nat, (k + s - 1) / s = (k - 1) / s + 1 ∨ k = 0 := by
        intro k
        by_cases hk : k = 0
        · exact Or.inr hk
        · left
          have : k + s - 1 = (k - 1) + s := by omega
          rw [this, Nat.add_div_right _ hs0]
      rcases key m with hkey | hkey
      · rw [hkey]
        by_cases hms : s ≤ m
        · have : m - s + s - 1 = m - 1 := by omega
          rw [this]
        · have h1 : m - s = 0 := by omega
          have h2 : m - 1 < s := by omega
          rw [h1, Nat.zero_add]
          rw [Nat.div_eq_of_lt (by omega), Nat.div_eq_of_lt h2]
      · omega
    · rw [splitLoop_stop text cs ov _ start (by omega)]
      have h0 : text.length - start = 0 := by omega
      rw [h0]
      exact (Nat.div_eq_of_lt (by omega)).symm

theorem splitLoop_getElem (text : List Char) (cs ov : Nat) (hov : ov < cs) :
    ∀ fuel start i, text.length - start ≤ fuel →
      i < (splitLoop text cs ov fuel start).length →
      (splitLoop text cs ov fuel start)[i]?
        = some ((text.drop (start + i * (cs - ov))).take cs) := by
  intro fuel
  induction fuel with
  | zero =>
    intro start i h hi
    simp only [splitLoop] at hi
    simp at hi
  | succ f ih =>
    intro start i h hi
    by_cases hs : start < text.length
    · simp only [splitLoop, if_pos hs] at hi ⊢
      cases i with
      | zero => simp
      | succ j =>
        simp only [List.getElem?_cons_succ]
        rw [List.length_cons] at hi
        rw [ih (start + (cs - ov)) j (by omega) (by omega)]
        have : start + (cs - ov) + j * (cs - ov) = start + (j + 1) * (cs - ov) := by
          rw [Nat.succ_mul]; omega
        rw [this]
    · rw [splitLoop_stop text cs ov _ start (by omega)] at hi
      simp at hi

theorem splitLoopChecked_eq (text : List Char) (cs ov : Nat) (hov : ov < cs) :
    ∀ fuel₁ fuel₂ start, text.length - start ≤ fuel₁ → text.length - start ≤ fuel₂ →
      splitLoopChecked text cs ov fuel₁ start = some (splitLoop text cs ov fuel₂ start) := by
  intro fuel₁
  induction fuel₁ with
  | zero =>
    intro fuel₂ start h1 h2
    have hns : ¬ start < text.length := by omega
    rw [splitLoop_stop text cs ov _ start (by omega)]
    simp [splitLoopChecked, hns]
  | succ f ih =>
    intro fuel₂ start h1 h2
    by_cases hs : start < text.length
    · cases fuel₂ with
      | zero => omega
      | succ f2 =>
        simp only [splitLoopChecked, splitLoop, if_pos hs]
        rw [ih f2 (start + (cs - ov)) (by omega) (by omega)]
        rfl
    · rw [splitLoop_stop text cs ov _ start (by omega)]
      simp [splitLoopChecked, hs]

/-- C2, counterexample. The claim's chunk-count formula
`ceil(max(0, n − overlap) / (chunk_size − overlap))` is wrong on the
code: for the 3-character text `"abc"` with `chunk_size = 3` and
`overlap = 1` the loop produces 2 chunks (`"abc"` and `"c"`), while the
formula gives 1; likewise `0 < n ≤ chunk_size` holds here yet the count
is 2, not 1. -/
theorem chunker_spec_count_fails :
    (split_text_with_overlap ("abc".toList) 3 1).length = 2
      ∧ specChunkCount 3 3 1 = 1
      ∧ 0 < 3 ∧ 3 ≤ 3
      ∧ (2 : Nat) ≠ 1 := by decide

/-- C2 (amended): for `0 ≤ overlap < chunk_size` the number of chunks is
`ceil(n / (chunk_size − overlap))` (0 when the text is empty), and it
equals 1 exactly on the shorter range `0 < n ≤ chunk_size − overlap`,
not on all of `0 < n ≤ chunk_size` as the spec says. -/
theorem chunker_count_formula (text : List Char) (chunk_size overlap : Nat)
    (hov : overlap < chunk_size) :
    (split_text_with_overlap text chunk_size overlap).length
        = (text.length + (chunk_size - overlap) - 1) / (chunk_size - overlap)
      ∧ (0 < text.length → text.length ≤ chunk_size - overlap →
          (split_text_with_overlap text chunk_size overlap).length = 1) := by
  have h := splitLoop_length text chunk_size overlap hov text.length 0 (by omega)
  rw [Nat.sub_zero] at h
  refine ⟨h, fun h1 h2 => ?_⟩
  show (splitLoop text chunk_size overlap text.length 0).length = 1
  rw [h]
  have hs0 : 0 < chunk_size - overlap := by omega
  have : text.length + (chunk_size - overlap) - 1 = (text.length - 1) + (chunk_size - overlap) := by
    omega
  rw [this, Nat.add_div_right _ hs0, Nat.div_eq_of_lt (by omega)]

theorem chunker_count_formula_witness :
    (split_text_with_overlap ("ab".toList) 3 1).length
        = (("ab".toList).length + (3 - 1) - 1) / (3 - 1)
      ∧ (split_text_with_overlap ("ab".toList) 3 1).length = 1 :=
  ⟨(chunker_count_formula ("ab".toList) 3 1 (by decide)).1,
   (chunker_count_formula ("ab".toList) 3 1 (by decide)).2 (by decide) (by decide)⟩

/-- C8: chunk `i` of `split(text, chunk_size, overlap)` is the slice
`text[i*stride : i*stride + chunk_size]` where `stride = chunk_size − overlap`
(the final chunk implicitly truncated at the end of the text), and in
particular every 7000-character text with `chunk_size = 3000`,
`overlap = 200` yields exactly the three chunks spanning
`[0, 3000)`, `[2800, 5800)` and `[5600, 7000)`. -/
theorem chunker_chunk_spans (text : List Char) (chunk_size overlap i : Nat)
    (hov : overlap < chunk_size) :
    (i < (split_text_with_overlap text chunk_size overlap).length →
      (split_text_with_overlap text chunk_size overlap)[i]?
        = some ((text.drop (i * (chunk_size - overlap))).take chunk_size))
    ∧ (∀ t : List Char, t.length = 7000 →
        split_text_with_overlap t 3000 200
          = [t.take 3000, (t.drop 2800).take 3000, (t.drop 5600).take 1400]) := by
  constructor
  · intro hi
    have h := splitLoop_getElem text chunk_size overlap hov text.length 0 i (by omega) hi
    simpa using h
  · intro t ht
    have hlen : (split_text_with_overlap t 3000 200).length = 3 := by
      show (splitLoop t 3000 200 t.length 0).length = 3
      rw [splitLoop_length t 3000 200 (by omega) t.length 0 (by omega), Nat.sub_zero, ht]
    obtain ⟨a, b, c, habc⟩ := List.length_eq_three.mp hlen
    have hget : ∀ i : Nat, i < 3 →
        (split_text_with_overlap t 3000 200)[i]?
          = some ((t.drop (i * 2800)).take 3000) := by
      intro i hi
      have hb : i < (splitLoop t 3000 200 t.length 0).length := by
        have h3 : (splitLoop t 3000 200 t.length 0).length = 3 := hlen
        omega
      have h := splitLoop_getElem t 3000 200 (by omega) t.length 0 i (by omega) hb
      simpa using h
    have h0 := hget 0 (by omega)
    have h1 := hget 1 (by omega)
    have h2 := hget 2 (by omega)
    rw [habc] at h0 h1 h2
    simp only [List.getElem?_cons_zero, List.getElem?_cons_succ, Option.some_inj] at h0 h1 h2
    have hc : (t.drop (2 * 2800)).take 3000 = (t.drop 5600).take 1400 := by
      have hd : (t.drop 5600).length = 1400 := by
        rw [List.length_drop, ht]
      have e1 : (t.drop 5600).take 3000 = t.drop 5600 :=
        List.take_of_length_le (by omega)
      have e2 : (t.drop 5600).take 1400 = t.drop 5600 :=
        List.take_of_length_le (by omega)
      have : (2 : Nat) * 2800 = 5600 := by norm_num
      rw [this, e1, e2]
    rw [habc, h0, h1, h2, hc]
    norm_num

theorem chunker_chunk_spans_witness :
    (split_text_with_overlap ("abcd".toList) 3 1)[1]?
        = some ((("abcd".toList).drop (1 * (3 - 1))).take 3)
      ∧ split_text_with_overlap (List.replicate 7000 'a') 3000 200
          = [(List.replicate 7000 'a').take 3000,
             ((List.replicate 7000 'a').drop 2800).take 3000,
             ((List.replicate 7000 'a').drop 5600).take 1400] :=
  ⟨(chunker_chunk_spans ("abcd".toList) 3 1 1 (by decide)).1 (by decide),
   (chunker_chunk_spans [] 1 0 0 (by decide)).2 (List.replicate 7000 'a')
     (List.length_replicate 7000 'a')⟩

/-- C9: under the contract precondition `overlap < chunk_size` the
`while` loop of `split` terminates — an iteration budget of
`len(text)` is never exhausted (each iteration advances `start` by the
strictly positive stride), so the loop ends with the chunk list
`split_text_with_overlap` denotes. -/
theorem chunker_terminates (text : List Char) (chunk_size overlap : Nat)
    (hov : overlap < chunk_size) :
    splitLoopChecked text chunk_size overlap text.length 0
      = some (split_text_with_overlap text chunk_size overlap) :=
  splitLoopChecked_eq text chunk_size overlap hov text.length text.length 0
    (by omega) (by omega)

theorem chunker_terminates_witness :
    splitLoopChecked ("abcde".toList) 3 1 ("abcde".toList).length 0
      = some (split_text_with_overlap ("abcde".toList) 3 1) :=
  chunker_terminates ("abcde".toList) 3 1 (by decide)

theorem extract_json_core_eq_getD (dflt : Json) (jsonLoads : List Char → Option Json)
    (text : List Char) :
    extract_json_core dflt jsonLoads text = (jsonAttempts jsonLoads text).getD dflt := by
  unfold extract_json_core jsonAttempts
  cases hf : findFencedJson text with
  | none => cases hl : jsonLoads text <;> simp
  | some seg =>
    cases h1 : jsonLoads (pyStrip seg) with
    | none => cases h2 : jsonLoads text <;> simp [h1, h2]
    | some j => simp [h1]

/-- C1: both `_extract_json_from_string` variants are total — whatever
`raw_text` is (empty, prose, malformed JSON, fenced JSON) and whatever
the underlying `json.loads` returns, the result is a plain `Json` value,
never an error: it is the first successful parse attempt if one exists
(`jsonAttempts`), and otherwise exactly the variant's canonical default
metadata dict with all fields present and empty (`defaultMetadataKU`
for `knowledge_utils`, `_empty_metadata` for `extraction_functions`).
Every internal failure (`jsonLoads` returning `none`) is absorbed. -/
theorem parser_total_with_default (jsonLoads : List Char → Option Json) (text : List Char) :
    KnowledgeUtils._extract_json_from_string jsonLoads text
        = (jsonAttempts jsonLoads text).getD defaultMetadataKU
      ∧ ExtractionFunctions._extract_json_from_string jsonLoads text
        = (jsonAttempts jsonLoads text).getD _empty_metadata :=
  ⟨extract_json_core_eq_getD defaultMetadataKU jsonLoads text,
   extract_json_core_eq_getD _empty_metadata jsonLoads text⟩

/-- C6, counterexample. The claim says a successful parse is "coerced
into the Metadata shape, with every required key that is missing ...
filled in". The code does no such coercion: `"\x7b\x7d"` parses
successfully as the empty JSON object, `parse` returns it unchanged, and
the result lacks the required key `"summary"` (and every other key).
The `.get`-with-default coercion happens only later, inside
`update_knowledge_db`. -/
theorem parser_no_key_filling :
    jsonLoadsImpl ("\x7b\x7d".toList) = some (Json.obj [])
      ∧ KnowledgeUtils._extract_json_from_string jsonLoadsImpl ("\x7b\x7d".toList)
          = Json.obj []
      ∧ (Json.obj []).hasKey ("summary".toList) = false :=
  ⟨rfl, rfl, rfl⟩

/-- C6 (amended): when a JSON payload parses successfully — from the
fenced block or from the whole text — both parser variants return the
parsed object exactly as it is, with no coercion and no filling of
missing keys (missing keys are defaulted only downstream, by the
`.get(key, default)` accesses of `update_knowledge_db`). -/
theorem parser_returns_parsed_object (jsonLoads : List Char → Option Json)
    (text : List Char) (j : Json) (h : jsonAttempts jsonLoads text = some j) :
    KnowledgeUtils._extract_json_from_string jsonLoads text = j
      ∧ ExtractionFunctions._extract_json_from_string jsonLoads text = j := by
  constructor
  · rw [KnowledgeUtils._extract_json_from_string, extract_json_core_eq_getD, h]
    rfl
  · rw [ExtractionFunctions._extract_json_from_string, extract_json_core_eq_getD, h]
    rfl

theorem parser_returns_parsed_object_witness :
    KnowledgeUtils._extract_json_from_string jsonLoadsImpl
        ("reply: \x60\x60\x60json\n\x7b\"summary\": \"A\"\x7d\n\x60\x60\x60 thanks".toList)
        = Json.obj [("summary".toList, Json.str ("A".toList))]
      ∧ ExtractionFunctions._extract_json_from_string jsonLoadsImpl
        ("reply: \x60\x60\x60json\n\x7b\"summary\": \"A\"\x7d\n\x60\x60\x60 thanks".toList)
        = Json.obj [("summary".toList, Json.str ("A".toList))] :=
  parser_returns_parsed_object jsonLoadsImpl
    ("reply: \x60\x60\x60json\n\x7b\"summary\": \"A\"\x7d\n\x60\x60\x60 thanks".toList)
    (Json.obj [("summary".toList, Json.str ("A".toList))]) rfl

/-- A request to the external text-generation service. The opaque prompt
templates of the source are out of scope (the spec treats them as opaque
configuration); what identifies a request is which kind of call it is
and which text was substituted into the template. -/
inductive Req where
  | partialSummary (chunk : List Char) : Req
  | finalExtraction (combined : List Char) : Req
  | singleExtraction (chunk : List Char) : Req
deriving DecidableEq

/-- A failure of a single service request (transport or service error):
the `Exception` the `openai.ChatCompletion.create` call raises. -/
inductive SvcErr where
  | err : SvcErr
deriving DecidableEq

/-- The external text-generation service: for each request, either the
response's message content or a raised error. -/
def Oracle : Type := Req → Except SvcErr (List Char)

/-- The oracle of a service that never fails and answers `f`. -/
def okOracle (f : Req → List Char) : Oracle := fun r => Except.ok (f r)

/-- An oracle whose every request fails. -/
def failingOracle : Oracle := fun _ => Except.error SvcErr.err

/-- `_call_openai_partial_summary(chunk_text)` (`knowledge_utils.py`
lines 149-173; `_call_openai_partial_summary_enhanced` of
`extraction_functions.py` is the same logic): issue one partial-summary
request; on success return the stripped response text, on a raised
service error catch it (report via `st.error`) and return the empty
string. `log` threads the sequence of requests issued so far. -/
def _call_openai_partial_summary (oracle : Oracle) (log : List Req)
    (chunk_text : List Char) : List Req × List Char :=
  let log2 := log ++ [Req.partialSummary chunk_text]
  match oracle (Req.partialSummary chunk_text) with
  | Except.ok s => (log2, pyStrip s)
  | Except.error _ => (log2, [])

/-- `_call_openai_single_chunk(chunk_text)` (`knowledge_utils.py` lines
97-147; `_call_openai_single_chunk_enhanced` likewise): one structured
extraction request on the chunk; on success pass the stripped response
to `_extract_json_from_string`, on a raised service error catch it and
return the default metadata dict (`dflt` is the variant's default). -/
def _call_openai_single_chunk (dflt : Json) (jsonLoads : List Char → Option Json)
    (oracle : Oracle) (log : List Req) (chunk_text : List Char) : List Req × Json :=
  let log2 := log ++ [Req.singleExtraction chunk_text]
  match oracle (Req.singleExtraction chunk_text) with
  | Except.ok s => (log2, extract_json_core dflt jsonLoads (pyStrip s))
  | Except.error _ => (log2, dflt)

/-- `_call_openai_final_metadata(combined_text)` (`knowledge_utils.py`
lines 175-224; `_call_openai_final_metadata_enhanced` likewise): one
final-extraction request on the combined text; same failure handling as
the single-chunk call. -/
def _call_openai_final_metadata (dflt : Json) (jsonLoads : List Char → Option Json)
    (oracle : Oracle) (log : List Req) (combined_text : List Char) : List Req × Json :=
  let log2 := log ++ [Req.finalExtraction combined_text]
  match oracle (Req.finalExtraction combined_text) with
  | Except.ok s => (log2, extract_json_core dflt jsonLoads (pyStrip s))
  | Except.error _ => (log2, dflt)

/-- The `for i, chunk in enumerate(chunks)` map phase: one partial-summary
call per chunk, strictly in chunk order, collecting the summaries in
that order. -/
def mapPhase (oracle : Oracle) : List (List Char) → List Req → List Req × List (List Char)
  | [], log => (log, [])
  | chunk :: rest, log =>
    let r1 := _call_openai_partial_summary oracle log chunk
    let r2 := mapPhase oracle rest r1.1
    (r2.1, r1.2 :: r2.2)

/-- The shared body of the two map-reduce orchestrators
(`knowledge_utils.call_openai_for_metadata`, lines 73-95, and
`extraction_functions.call_openai_for_enhanced_metadata`, lines 126-137):
chunk the text; if exactly one chunk, one single-chunk extraction call;
otherwise the map phase over all chunks, `"\n".join` of the partial
summaries preserving order, and one final-extraction call on the
combined text. Returns the sequence of service requests issued and the
resulting metadata. -/
def call_openai_core (chunk_size overlap : Nat) (dflt : Json)
    (jsonLoads : List Char → Option Json) (oracle : Oracle)
    (text : List Char) : List Req × Json :=
  match split_text_with_overlap text chunk_size overlap with
  | [chunk] => _call_openai_single_chunk dflt jsonLoads oracle [] chunk
  | chunks =>
    _call_openai_final_metadata dflt jsonLoads oracle
      (mapPhase oracle chunks []).1
      (joinWithNewline (mapPhase oracle chunks []).2)

/-- `knowledge_utils.call_openai_for_metadata(text)`: chunk size 3000,
overlap 200, defaults of that file. -/
def call_openai_for_metadata (jsonLoads : List Char → Option Json) (oracle : Oracle)
    (text : List Char) : List Req × Json :=
  call_openai_core 3000 200 defaultMetadataKU jsonLoads oracle text

/-- `extraction_functions.call_openai_for_enhanced_metadata(text)`:
chunk size and overlap come from the external `prompts.json`
configuration (defaults 500 and 100), so they are parameters; the
fallback default is `_empty_metadata()`. -/
def call_openai_for_enhanced_metadata (chunk_size overlap : Nat)
    (jsonLoads : List Char → Option Json) (oracle : Oracle)
    (text : List Char) : List Req × Json :=
  call_openai_core chunk_size overlap _empty_metadata jsonLoads oracle text

/-- `app.py`'s simple `call_openai_for_metadata(text)` (lines 41-71): a
single extraction request on the whole text, `json.loads` directly on
the stripped response (no fenced-block fallback); any exception — the
service call's or `json.loads`'s — is caught by the one `except` and
the function returns `None`. -/
def App.call_openai_for_metadata (jsonLoads : List Char → Option Json)
    (oracle : Oracle) (text : List Char) : Option Json :=
  match oracle (Req.singleExtraction text) with
  | Except.ok s => jsonLoads (pyStrip s)
  | Except.error _ => none

/-- The value a partial-summary call returns, independent of the log. -/
def summaryValue (oracle : Oracle) (chunk : List Char) : List Char :=
  match oracle (Req.partialSummary chunk) with
  | Except.ok s => pyStrip s
  | Except.error _ => []

/-- The value a final-extraction call returns, independent of the log. -/
def finalValue (dflt : Json) (jsonLoads : List Char → Option Json)
    (oracle : Oracle) (combined : List Char) : Json :=
  match oracle (Req.finalExtraction combined) with
  | Except.ok s => extract_json_core dflt jsonLoads (pyStrip s)
  | Except.error _ => dflt

/-- The value a single-chunk extraction call returns, independent of the log. -/
def singleValue (dflt : Json) (jsonLoads : List Char → Option Json)
    (oracle : Oracle) (chunk : List Char) : Json :=
  match oracle (Req.singleExtraction chunk) with
  | Except.ok s => extract_json_core dflt jsonLoads (pyStrip s)
  | Except.error _ => dflt

theorem partial_summary_eq (oracle : Oracle) (log : List Req) (chunk : List Char) :
    _call_openai_partial_summary oracle log chunk
      = (log ++ [Req.partialSummary chunk], summaryValue oracle chunk) := by
  unfold _call_openai_partial_summary summaryValue
  cases oracle (Req.partialSummary chunk) <;> rfl

theorem final_metadata_eq (dflt : Json) (jsonLoads : List Char → Option Json)
    (oracle : Oracle) (log : List Req) (combined : List Char) :
    _call_openai_final_metadata dflt jsonLoads oracle log combined
      = (log ++ [Req.finalExtraction combined], finalValue dflt jsonLoads oracle combined) := by
  unfold _call_openai_final_metadata finalValue
  cases oracle (Req.finalExtraction combined) <;> rfl

theorem single_chunk_eq (dflt : Json) (jsonLoads : List Char → Option Json)
    (oracle : Oracle) (log : List Req) (chunk : List Char) :
    _call_openai_single_chunk dflt jsonLoads oracle log chunk
      = (log ++ [Req.singleExtraction chunk], singleValue dflt jsonLoads oracle chunk) := by
  unfold _call_openai_single_chunk singleValue
  cases oracle (Req.singleExtraction chunk) <;> rfl

theorem mapPhase_eq (oracle : Oracle) :
    ∀ (chunks : List (List Char)) (log : List Req),
      mapPhase oracle chunks log
        = (log ++ chunks.map Req.partialSummary, chunks.map (summaryValue oracle)) := by
  intro chunks
  induction chunks with
  | nil => intro log; simp [mapPhase]
  | cons c rest ih =>
    intro log
    simp only [mapPhase, partial_summary_eq, ih, List.map_cons]
    simp

theorem call_openai_core_eq (chunk_size overlap : Nat) (dflt : Json)
    (jsonLoads : List Char → Option Json) (oracle : Oracle) (text : List Char) :
    call_openai_core chunk_size overlap dflt jsonLoads oracle text
      = match split_text_with_overlap text chunk_size overlap with
        | [c] => ([Req.singleExtraction c], singleValue dflt jsonLoads oracle c)
        | chunks =>
          (chunks.map Req.partialSummary
             ++ [Req.finalExtraction (joinWithNewline (chunks.map (summaryValue oracle)))],
           finalValue dflt jsonLoads oracle
             (joinWithNewline (chunks.map (summaryValue oracle)))) := by
  unfold call_openai_core
  rcases split_text_with_overlap text chunk_size overlap with _ | ⟨a, _ | ⟨b, t⟩⟩
  · simp [mapPhase_eq, final_metadata_eq]
  · simp [single_chunk_eq]
  · simp [mapPhase_eq, final_metadata_eq]

/-- C5: with a non-failing service, when chunking yields more than one
chunk the orchestrator issues exactly one partial-summary request per
chunk, strictly in chunk order, joins the (stripped) partial summaries
with newlines in that order, issues exactly one final-extraction
request on the combined text, and returns the parser's result on the
final response; when chunking yields exactly one chunk it issues a
single structured-extraction request on that chunk and returns the
parser's result directly. Stated for the shared body of the two
map-reduce orchestrators, hence for both of them. -/
theorem orchestrator_map_reduce (chunk_size overlap : Nat) (dflt : Json)
    (jsonLoads : List Char → Option Json) (f : Req → List Char) (text : List Char) :
    (1 < (split_text_with_overlap text chunk_size overlap).length →
      call_openai_core chunk_size overlap dflt jsonLoads (okOracle f) text
        = ((split_text_with_overlap text chunk_size overlap).map Req.partialSummary
             ++ [Req.finalExtraction (joinWithNewline
                  ((split_text_with_overlap text chunk_size overlap).map
                    (fun c => pyStrip (f (Req.partialSummary c)))))],
           extract_json_core dflt jsonLoads
             (pyStrip (f (Req.finalExtraction (joinWithNewline
                ((split_text_with_overlap text chunk_size overlap).map
                  (fun c => pyStrip (f (Req.partialSummary c))))))))))
    ∧ (∀ c : List Char, split_text_with_overlap text chunk_size overlap = [c] →
        call_openai_core chunk_size overlap dflt jsonLoads (okOracle f) text
          = ([Req.singleExtraction c],
             extract_json_core dflt jsonLoads (pyStrip (f (Req.singleExtraction c))))) := by
  have hsv : summaryValue (okOracle f) = fun c => pyStrip (f (Req.partialSummary c)) := rfl
  constructor
  · intro hlen
    rw [call_openai_core_eq]
    rcases hsp : split_text_with_overlap text chunk_size overlap with _ | ⟨a, _ | ⟨b, t⟩⟩
    · rw [hsp] at hlen; simp at hlen
    · rw [hsp] at hlen; simp at hlen
    · rw [hsv]
      rfl
  · intro c hc
    rw [call_openai_core_eq, hc]
    rfl

theorem orchestrator_map_reduce_witness :
    call_openai_core 3 1 defaultMetadataKU jsonLoadsImpl (okOracle (fun _ => []))
        ("abcd".toList)
        = ([Req.partialSummary ("abc".toList), Req.partialSummary ("cd".toList),
            Req.finalExtraction ['\n']], defaultMetadataKU)
      ∧ call_openai_core 3 1 defaultMetadataKU jsonLoadsImpl (okOracle (fun _ => []))
        ("ab".toList)
        = ([Req.singleExtraction ("ab".toList)], defaultMetadataKU) :=
  ⟨(orchestrator_map_reduce 3 1 defaultMetadataKU jsonLoadsImpl (fun _ => [])
      ("abcd".toList)).1 (by decide),
   (orchestrator_map_reduce 3 1 defaultMetadataKU jsonLoadsImpl (fun _ => [])
      ("ab".toList)).2 ("ab".toList) (by decide)⟩

/-- C10: on the empty input text the chunker returns the empty chunk
sequence — zero chunks, not one degenerate empty chunk — so the
orchestrator's `len(chunks) == 1` test fails, it takes the multi-chunk
branch, issues zero partial-summary requests, and issues exactly one
final-extraction request whose combined text is the empty string
(`"\n".join([])`), returning that call's (parser or default) result. -/
theorem orchestrator_empty_text (chunk_size overlap : Nat) (dflt : Json)
    (jsonLoads : List Char → Option Json) (oracle : Oracle) :
    split_text_with_overlap [] chunk_size overlap = []
      ∧ call_openai_core chunk_size overlap dflt jsonLoads oracle []
          = ([Req.finalExtraction []], finalValue dflt jsonLoads oracle []) := by
  refine ⟨rfl, ?_⟩
  have h : call_openai_core chunk_size overlap dflt jsonLoads oracle []
      = _call_openai_final_metadata dflt jsonLoads oracle [] [] := rfl
  rw [h, final_metadata_eq]
  rfl

/-- C4, counterexample. The claim covers `app.py`'s orchestrator
(`call_openai_for_metadata`, app.py lines 41-71, a cited source of the
claim) and says a failed extraction call is substituted with the
parser's default Metadata, all fields present. In that variant the
caught failure produces `None` instead — not the default Metadata dict
of either parser variant. -/
theorem orchestrator_app_error_returns_none :
    App.call_openai_for_metadata jsonLoadsImpl failingOracle ("some patent text".toList) = none
      ∧ (none : Option Json) ≠ some defaultMetadataKU
      ∧ (none : Option Json) ≠ some _empty_metadata := by
  refine ⟨rfl, ?_, ?_⟩ <;> exact fun h => Option.noConfusion h

/-- C4 (amended): in the two map-reduce orchestrators every single
service-request failure is caught at its call site and substituted with
the safe default — the empty string for a partial-summary call, the
variant's default metadata dict for a single-chunk or final extraction
call — and a failure on one chunk never aborts the pipeline: whatever
the oracle does, the multi-chunk path still issues exactly one
partial-summary request per chunk plus the final-extraction request.
No service error value escapes those orchestrators (their result type
carries no error). In `app.py`'s simple variant, however, the caught
failure is substituted with `None`, not with a default Metadata. -/
theorem orchestrator_fault_isolation (chunk_size overlap : Nat) (dflt : Json)
    (jsonLoads : List Char → Option Json) (oracle : Oracle) (log : List Req)
    (chunk combined text : List Char) (e : SvcErr) :
    (oracle (Req.partialSummary chunk) = Except.error e →
      _call_openai_partial_summary oracle log chunk
        = (log ++ [Req.partialSummary chunk], []))
    ∧ (oracle (Req.finalExtraction combined) = Except.error e →
      _call_openai_final_metadata dflt jsonLoads oracle log combined
        = (log ++ [Req.finalExtraction combined], dflt))
    ∧ (oracle (Req.singleExtraction chunk) = Except.error e →
      _call_openai_single_chunk dflt jsonLoads oracle log chunk
        = (log ++ [Req.singleExtraction chunk], dflt))
    ∧ ((split_text_with_overlap text chunk_size overlap).length ≠ 1 →
      (call_openai_core chunk_size overlap dflt jsonLoads oracle text).1
        = (split_text_with_overlap text chunk_size overlap).map Req.partialSummary
            ++ [Req.finalExtraction (joinWithNewline
                 ((split_text_with_overlap text chunk_size overlap).map
                   (summaryValue oracle)))])
    ∧ (oracle (Req.singleExtraction text) = Except.error e →
      App.call_openai_for_metadata jsonLoads oracle text = none) := by
  refine ⟨?_, ?_, ?_, ?_, ?_⟩
  · intro h
    unfold _call_openai_partial_summary
    rw [h]
  · intro h
    unfold _call_openai_final_metadata
    rw [h]
  · intro h
    unfold _call_openai_single_chunk
    rw [h]
  · intro h
    rw [call_openai_core_eq]
    rcases hsp : split_text_with_overlap text chunk_size overlap with _ | ⟨a, _ | ⟨b, t⟩⟩
    · rfl
    · rw [hsp] at h; simp at h
    · rfl
  · intro h
    unfold App.call_openai_for_metadata
    rw [h]

theorem orchestrator_fault_isolation_witness :
    _call_openai_partial_summary failingOracle [] ("c1".toList)
        = ([Req.partialSummary ("c1".toList)], [])
      ∧ _call_openai_final_metadata defaultMetadataKU jsonLoadsImpl failingOracle []
          ("c2".toList)
        = ([Req.finalExtraction ("c2".toList)], defaultMetadataKU)
      ∧ _call_openai_single_chunk defaultMetadataKU jsonLoadsImpl failingOracle []
          ("c3".toList)
        = ([Req.singleExtraction ("c3".toList)], defaultMetadataKU)
      ∧ (call_openai_core 3 1 defaultMetadataKU jsonLoadsImpl failingOracle
          ("abcd".toList)).1
        = (split_text_with_overlap ("abcd".toList) 3 1).map Req.partialSummary
            ++ [Req.finalExtraction (joinWithNewline
                 ((split_text_with_overlap ("abcd".toList) 3 1).map
                   (summaryValue failingOracle)))]
      ∧ App.call_openai_for_metadata jsonLoadsImpl failingOracle ("t".toList) = none := by
  have h := orchestrator_fault_isolation 3 1 defaultMetadataKU jsonLoadsImpl failingOracle
    [] ("c1".toList) ("c2".toList) ("abcd".toList) SvcErr.err
  refine ⟨(h.1 rfl), ?_, ?_, (h.2.2.2.1 (by decide)), (h.2.2.2.2 rfl)⟩
  · have h2 := orchestrator_fault_isolation 3 1 defaultMetadataKU jsonLoadsImpl failingOracle
      [] ("c1".toList) ("c2".toList) ("abcd".toList) SvcErr.err
    exact h2.2.1 rfl
  · have h3 := orchestrator_fault_isolation 3 1 defaultMetadataKU jsonLoadsImpl failingOracle
      [] ("c3".toList) ("c2".toList) ("abcd".toList) SvcErr.err
    exact h3.2.2.1 rfl

/-- A graph node `{"id": ..., "label": ..., "group": ...}`. -/
structure Node where
  id : List Char
  label : List Char
  group : List Char
deriving DecidableEq

/-- A graph edge `{"source": ..., "target": ..., "label": ...}`. -/
structure Edge where
  source : List Char
  target : List Char
  label : List Char
deriving DecidableEq

/-- `db["graph"]`: the node list and the edge list. -/
structure Graph where
  nodes : List Node
  edges : List Edge
deriving DecidableEq

/-- The `additional_info` sub-dict of a metadata dict. Only its
`inventors` key is read by the code under verification
(`metadata.get("additional_info", {}).get("inventors", [])`), so only
that key is modelled; `none` stands for an absent key. -/
structure AddInfoDict where
  inventors : Option (List (List Char))
deriving DecidableEq

/-- The `{}` default of `metadata.get("additional_info", {})`. -/
def emptyAddInfo : AddInfoDict := AddInfoDict.mk none

/-- The metadata dict as consumed by the `update_knowledge_db` variants
through `metadata.get(key, default)`: each key the code reads is an
optional field (`none` models an absent key, and `Option.getD` models
`.get` with its default). `terminologies` is an association list whose
key order models the dict's insertion order (`.keys()` iterates it). -/
structure MetadataDict where
  title : Option (List Char)
  summary : Option (List Char)
  keywords : Option (List (List Char))
  entities : Option (List (List Char × List Char))
  technical_field : Option (List Char)
  background_art : Option (List Char)
  prior_art_documents : Option (List (List Char))
  problems_to_be_solved : Option (List Char)
  means_for_solving : Option (List Char)
  effects : Option (List Char)
  brief_description_of_drawings : Option (List Char)
  embodiments : Option (List Char)
  claims : Option (List (List Char))
  additional_info : Option AddInfoDict
  terminologies : Option (List (List Char × List Char))
deriving DecidableEq

/-- A metadata dict with every key absent. -/
def emptyMetaDict : MetadataDict :=
  MetadataDict.mk none none none none none none none none none none none none
    none none none

/-- The document record `update_knowledge_db` of `knowledge_utils.py`
(and of `app.py`) appends to `db["documents"]`. -/
structure DocEntrySimple where
  id : List Char
  summary : List Char
  keywords : List (List Char)
  entities : List (List Char × List Char)
  fulltext : List Char
deriving DecidableEq

/-- The richer document record `update_knowledge_db` of `db_utils.py`
appends to `db["documents"]`. -/
structure DocEntryEnhanced where
  id : List Char
  title : List Char
  technical_field : List Char
  background_art : List Char
  prior_art_documents : List (List Char)
  problems_to_be_solved : List Char
  means_for_solving : List Char
  effects : List Char
  brief_description_of_drawings : List Char
  embodiments : List Char
  claims : List (List Char)
  additional_info : AddInfoDict
  terminologies : List (List Char × List Char)
  fulltext : List Char
deriving DecidableEq

/-- The knowledge store `{"documents": [...], "graph": {...}}`,
parameterised by the document-record type of the variant. -/
structure KnowledgeDB (Doc : Type) where
  documents : List Doc
  graph : Graph
deriving DecidableEq

/-- The sequential document identifier `f"doc_{n}"`. -/
def docIdString (n : Nat) : List Char := ("doc_".toList) ++ (Nat.repr n).toList

example : docIdString 1 = "doc_1".toList := by decide
example : docIdString 2 = "doc_2".toList := by decide

/-- The `if x not in [n["id"] for n in db["graph"]["nodes"]]: append`
pattern every node insertion of the source uses: append the node only
when no node with that id exists anywhere in the current node list. -/
def addNodeIfAbsent (nodes : List Node) (id label group : List Char) : List Node :=
  if id ∈ nodes.map Node.id then nodes
  else nodes ++ [Node.mk id label group]

/-- One `for item in items:` loop of the source: for each item, insert
its node (id = label = the item, tagged `group`) only if absent, then
unconditionally append the `lbl`-labelled edge from `source` to it. -/
def addItemNodesAndEdges (source group lbl : List Char) (g : Graph)
    (items : List (List Char)) : Graph :=
  items.foldl
    (fun g item =>
      Graph.mk (addNodeIfAbsent g.nodes item item group)
               (g.edges ++ [Edge.mk source item lbl]))
    g

/-- `knowledge_utils.update_knowledge_db(db, metadata, original_text)`
(lines 251-292): always the sequential id `doc_<n+1>`; append the
document record; insert the document node if absent; then the keyword
loop with `has_keyword` edges. -/
def KnowledgeUtils.update_knowledge_db (db : KnowledgeDB DocEntrySimple)
    (metadata : MetadataDict) (original_text : List Char) : KnowledgeDB DocEntrySimple :=
  let doc_id := docIdString (db.documents.length + 1)
  let doc_entry : DocEntrySimple :=
    DocEntrySimple.mk doc_id (metadata.summary.getD []) (metadata.keywords.getD [])
      (metadata.entities.getD []) original_text
  let g1 := Graph.mk (addNodeIfAbsent db.graph.nodes doc_id doc_id ("document".toList))
                     db.graph.edges
  let g2 := addItemNodesAndEdges doc_id ("keyword".toList) ("has_keyword".toList) g1
              (metadata.keywords.getD [])
  KnowledgeDB.mk (db.documents ++ [doc_entry]) g2

/-- `db_utils.update_knowledge_db(db, metadata, original_text)` (lines
19-97): id = the metadata's `title` when non-empty, else the sequential
`doc_<n+1>`; append the enhanced document record; insert the title node
if absent; then the inventor loop (`HAS_INVENTOR`), the keyword loop
over `prior_art_documents + claims` (`HAS_KEYWORD`), and the
terminology-keys loop (`HAS_TERMINOLOGY`). -/
def DbUtils.update_knowledge_db (db : KnowledgeDB DocEntryEnhanced)
    (metadata : MetadataDict) (original_text : List Char) : KnowledgeDB DocEntryEnhanced :=
  let title0 := metadata.title.getD []
  let title := if title0 = [] then docIdString (db.documents.length + 1) else title0
  let doc_entry : DocEntryEnhanced :=
    DocEntryEnhanced.mk title title (metadata.technical_field.getD [])
      (metadata.background_art.getD []) (metadata.prior_art_documents.getD [])
      (metadata.problems_to_be_solved.getD []) (metadata.means_for_solving.getD [])
      (metadata.effects.getD []) (metadata.brief_description_of_drawings.getD [])
      (metadata.embodiments.getD []) (metadata.claims.getD [])
      (metadata.additional_info.getD emptyAddInfo) (metadata.terminologies.getD [])
      original_text
  let g1 := Graph.mk (addNodeIfAbsent db.graph.nodes title title ("document".toList))
                     db.graph.edges
  let inventors := ((metadata.additional_info.getD emptyAddInfo).inventors).getD []
  let g2 := addItemNodesAndEdges title ("inventor".toList) ("HAS_INVENTOR".toList) g1
              inventors
  let keywords := metadata.prior_art_documents.getD [] ++ metadata.claims.getD []
  let g3 := addItemNodesAndEdges title ("keyword".toList) ("HAS_KEYWORD".toList) g2
              keywords
  let terms := (metadata.terminologies.getD []).map Prod.fst
  let g4 := addItemNodesAndEdges title ("terminology".toList) ("HAS_TERMINOLOGY".toList) g3
              terms
  KnowledgeDB.mk (db.documents ++ [doc_entry]) g4

/-- The node-id uniqueness invariant: no two nodes of the store share an
id, regardless of group. -/
def graphIdsNodup (g : Graph) : Prop := (g.nodes.map Node.id).Nodup

theorem addNodeIfAbsent_nodup (nodes : List Node) (id label group : List Char)
    (h : (nodes.map Node.id).Nodup) :
    ((addNodeIfAbsent nodes id label group).map Node.id).Nodup := by
  unfold addNodeIfAbsent
  by_cases hm : id ∈ nodes.map Node.id
  · simp only [if_pos hm]
    exact h
  · simp only [if_neg hm, List.map_append, List.map_cons, List.map_nil]
    refine List.Nodup.append h (by simp) ?_
    intro a ha hb
    simp at hb
    subst hb
    exact hm ha

theorem addItemNodesAndEdges_nodup (source group lbl : List Char) :
    ∀ (items : List (List Char)) (g : Graph), graphIdsNodup g →
      graphIdsNodup (addItemNodesAndEdges source group lbl g items) := by
  intro items
  induction items with
  | nil => intro g h; exact h
  | cons x rest ih =>
    intro g h
    simp only [addItemNodesAndEdges, List.foldl_cons] at ih ⊢
    exact ih _ (addNodeIfAbsent_nodup g.nodes x x group h)

/-- A metadata dict whose only keys are a title `"A"` and the prior-art
reference `"gear"`. -/
def gearMetaA : MetadataDict :=
  { emptyMetaDict with
      title := some ("A".toList)
      prior_art_documents := some ["gear".toList] }

/-- A metadata dict whose only keys are a title `"B"` and the prior-art
reference `"gear"`. -/
def gearMetaB : MetadataDict :=
  { emptyMetaDict with
      title := some ("B".toList)
      prior_art_documents := some ["gear".toList] }

/-- A metadata dict whose only key is the keyword list `["gear"]`. -/
def gearMetaSimple : MetadataDict :=
  { emptyMetaDict with keywords := some ["gear".toList] }

/-- C3: both merge variants preserve the store-wide node-id uniqueness
invariant — every insertion first scans the full current node list,
independent of group — and merging two documents that both reference
the keyword `"gear"` into an empty store yields exactly one node with
id `"gear"` and exactly two edges targeting it. -/
theorem merge_node_ids_unique :
    (∀ (db : KnowledgeDB DocEntrySimple) (m : MetadataDict) (t : List Char),
        graphIdsNodup db.graph →
        graphIdsNodup (KnowledgeUtils.update_knowledge_db db m t).graph)
    ∧ (∀ (db : KnowledgeDB DocEntryEnhanced) (m : MetadataDict) (t : List Char),
        graphIdsNodup db.graph →
        graphIdsNodup (DbUtils.update_knowledge_db db m t).graph)
    ∧ (((DbUtils.update_knowledge_db
          (DbUtils.update_knowledge_db (KnowledgeDB.mk [] (Graph.mk [] []))
            gearMetaA []) gearMetaB []).graph.nodes.filter
            (fun nd => nd.id == "gear".toList)).length = 1
    ∧ ((DbUtils.update_knowledge_db
          (DbUtils.update_knowledge_db (KnowledgeDB.mk [] (Graph.mk [] []))
            gearMetaA []) gearMetaB []).graph.edges.filter
            (fun e => e.target == "gear".toList)).length = 2) := by
  refine ⟨?_, ?_, by decide, by decide⟩
  · intro db m t h
    exact addItemNodesAndEdges_nodup _ _ _ _ _
      (addNodeIfAbsent_nodup db.graph.nodes _ _ _ h)
  · intro db m t h
    exact addItemNodesAndEdges_nodup _ _ _ _ _
      (addItemNodesAndEdges_nodup _ _ _ _ _
        (addItemNodesAndEdges_nodup _ _ _ _ _
          (addNodeIfAbsent_nodup db.graph.nodes _ _ _ h)))

theorem merge_node_ids_unique_witness :
    graphIdsNodup (KnowledgeUtils.update_knowledge_db
        (KnowledgeDB.mk [] (Graph.mk [] [])) gearMetaSimple []).graph
      ∧ graphIdsNodup (DbUtils.update_knowledge_db
        (KnowledgeDB.mk [] (Graph.mk [] [])) gearMetaA []).graph :=
  ⟨merge_node_ids_unique.1 (KnowledgeDB.mk [] (Graph.mk [] [])) gearMetaSimple []
      (by simp [graphIdsNodup]),
   merge_node_ids_unique.2.1 (KnowledgeDB.mk [] (Graph.mk [] [])) gearMetaA []
      (by simp [graphIdsNodup])⟩

/-- A metadata dict whose only key is the non-empty title `"X"`. -/
def mTitleX : MetadataDict := { emptyMetaDict with title := some ("X".toList) }

/-- C7, counterexample. The claim (whose cited sources include
`knowledge_utils.update_knowledge_db`, lines 257-268) says the merge
assigns the metadata's non-empty title as the document identifier. The
`knowledge_utils` variant never reads the title: merging a metadata
with title `"X"` into an empty store assigns `"doc_1"`, not `"X"`. -/
theorem merge_id_ignores_title_in_knowledge_utils :
    mTitleX.title = some ("X".toList)
      ∧ ((KnowledgeUtils.update_knowledge_db (KnowledgeDB.mk [] (Graph.mk [] []))
            mTitleX []).documents.map DocEntrySimple.id) = ["doc_1".toList]
      ∧ ("doc_1".toList) ≠ ("X".toList) :=
  ⟨rfl, by decide, by decide⟩

/-- C7 (amended): the `db_utils` merge assigns the metadata's
title/name field as the new document's identifier when that field is
non-empty and the sequential `doc_<n+1>` otherwise, and two successive
empty-title merges into an empty store assign `"doc_1"` then
`"doc_2"`; the `knowledge_utils` (and `app.py`) variant always assigns
the sequential identifier, ignoring any title field. -/
theorem merge_id_assignment (dbE : KnowledgeDB DocEntryEnhanced)
    (dbS : KnowledgeDB DocEntrySimple) (m : MetadataDict) (t : List Char) :
    ((DbUtils.update_knowledge_db dbE m t).documents.map DocEntryEnhanced.id
        = dbE.documents.map DocEntryEnhanced.id
            ++ [if m.title.getD [] = [] then docIdString (dbE.documents.length + 1)
                else m.title.getD []])
    ∧ ((KnowledgeUtils.update_knowledge_db dbS m t).documents.map DocEntrySimple.id
        = dbS.documents.map DocEntrySimple.id ++ [docIdString (dbS.documents.length + 1)])
    ∧ ((DbUtils.update_knowledge_db
          (DbUtils.update_knowledge_db (KnowledgeDB.mk [] (Graph.mk [] []))
            emptyMetaDict []) emptyMetaDict []).documents.map DocEntryEnhanced.id
        = ["doc_1".toList, "doc_2".toList]) := by
  refine ⟨?_, ?_, by decide⟩
  · unfold DbUtils.update_knowledge_db
    simp
  · unfold KnowledgeUtils.update_knowledge_db
    simp
